/-
Lean embedding of the semantic-analysis pass of the DenkInetrpreter
repository.  The symbol model, the scoped symbol table and the semantic
analyzer are translated from src/sts.py; the UnaryOp node shape is
translated from src/ast.py.  The AST node classes produced by the parser,
the TokenType enumeration, the error codes and the SemanticError exception
live in modules that are not part of src/ (parser, lex, base); their shapes
are modelled from section 6 of the specification together with the
attribute reads that src/sts.py performs on them.

Python's recursion is embedded with an explicit fuel argument that is
decreased once per recursive visit, so the resulting function is
structurally recursive and evaluates inside the kernel; statements about
the analyzer quantify over the fuel.  A raised SemanticError (or a Python
AttributeError) is modelled as an `Except.error` that also carries the
analyzer's `current_scope` at the moment of the raise, since raising an
exception in Python does not undo mutations of the scope chain.
-/
import Mathlib

namespace Denk

/-- Modelled from the spec: a lexer token, restricted to the fields the
analyzer needs to attribute an error (the lexeme and a source position). -/
structure Token where
  value : String
  lineno : Nat
  column : Nat
deriving DecidableEq, Repr

/-- Modelled from the spec: the members of the TokenType enumeration
(module lex) that the analyzer mentions by name. -/
inductive TokenType where
  | PROGRAM
  | PROCEDURE
  | FUNCTION
deriving DecidableEq, Repr

/-- Value held by the `scopeType` attribute of a scope table: either a member
of the TokenType enumeration, or the TokenType class object itself, which is
what `ScopedSymbolTable.__init__` actually stores (`self.scopeType=TokenType`,
src/sts.py line 68).  Python's `==` between the class object and any
enumeration member is False, which the derived equality reproduces. -/
inductive ScopeTypeVal where
  | tokenTypeClass
  | member (t : TokenType)
deriving DecidableEq, Repr

/-- Modelled from the spec: the error codes of base.ErrorCode used by the
analyzer (DuplicateIdentifier, IdentifierNotFound, MissingReturn). -/
inductive ErrorCode where
  | DUPLICATE_ID
  | ID_NOT_FOUND
  | MISSING_RETURN
deriving DecidableEq, Repr

/-- Symbols of src/sts.py: the Symbol subclasses VarSymbol (name and declared
type), BuiltinTypeSymbol (name only) and ProcedureSymbol (name and ordered
formal-parameter list).  A VarSymbol's type holds whatever `lookup` returned
for the declared type name, possibly None. -/
inductive Symbol where
  | VarSymbol (name : String) (type : Option Symbol)
  | BuiltinTypeSymbol (name : String)
  | ProcedureSymbol (name : String) (params : List Symbol)
deriving Repr

/-- Name attribute shared by all Symbol subclasses. -/
def Symbol.name : Symbol → String
  | .VarSymbol n _ => n
  | .BuiltinTypeSymbol n => n
  | .ProcedureSymbol n _ => n

/-- Effect of `proc_symbol.params.append(var_symbol)` on the symbol object; on
a non-ProcedureSymbol it is the identity (the analyzer only ever applies it to
the ProcedureSymbol it inserted just before pushing the new scope). -/
def Symbol.appendParam (s v : Symbol) : Symbol :=
  match s with
  | .ProcedureSymbol n ps => .ProcedureSymbol n (ps ++ [v])
  | s => s

/-- Python dict read `self._symbols.get(name)` over the insertion-ordered
association list that models the `_symbols` dict. -/
def symGet : List (String × Symbol) → String → Option Symbol
  | [], _ => none
  | (k, v) :: rest, name => if k = name then some v else symGet rest name

/-- Python dict write `self._symbols[key] = value`: overwrites in place when
the key exists (keeping its position in insertion order), appends at the end
otherwise. -/
def symSet : List (String × Symbol) → String → Symbol → List (String × Symbol)
  | [], k, v => [(k, v)]
  | (k1, v1) :: rest, k, v =>
    if k1 = k then (k1, v) :: rest else (k1, v1) :: symSet rest k v

/-- Pointwise update of the entry stored under key `k` of a dict, modelling
in-place mutation of the symbol object that the dict references under `k`. -/
def symMapAt : List (String × Symbol) → String → (Symbol → Symbol) → List (String × Symbol)
  | [], _, _ => []
  | (k1, v1) :: rest, k, f =>
    if k1 = k then (k1, f v1) :: symMapAt rest k f else (k1, v1) :: symMapAt rest k f

/-- Scope table of src/sts.py (class ScopedSymbolTable).  `enclosing_scope` is
None exactly for the `outermost` constructor.  `hasReturnStatement` models the
class attribute of that name as observed on an instance: it starts out False
(the class-level initializer) and would become True only if
`currentScope.hasReturnStatement=True` in visit_Assign ever executed for this
table. -/
inductive ScopedSymbolTable where
  | outermost (scope_name : String) (scopeType : ScopeTypeVal) (scope_level : Nat)
      (symbols : List (String × Symbol)) (hasReturnStatement : Bool)
  | inner (scope_name : String) (scopeType : ScopeTypeVal) (scope_level : Nat)
      (symbols : List (String × Symbol)) (hasReturnStatement : Bool)
      (enclosing_scope : ScopedSymbolTable)
deriving Repr

namespace ScopedSymbolTable

/-- Attribute `scope_name`. -/
def scope_name : ScopedSymbolTable → String
  | .outermost n _ _ _ _ => n
  | .inner n _ _ _ _ _ => n

/-- Attribute `scopeType`. -/
def scopeType : ScopedSymbolTable → ScopeTypeVal
  | .outermost _ t _ _ _ => t
  | .inner _ t _ _ _ _ => t

/-- Attribute `scope_level`. -/
def scope_level : ScopedSymbolTable → Nat
  | .outermost _ _ l _ _ => l
  | .inner _ _ l _ _ _ => l

/-- Attribute `_symbols`. -/
def symbols : ScopedSymbolTable → List (String × Symbol)
  | .outermost _ _ _ s _ => s
  | .inner _ _ _ s _ _ => s

/-- Attribute `hasReturnStatement` (read through the instance). -/
def hasReturnStatement : ScopedSymbolTable → Bool
  | .outermost _ _ _ _ h => h
  | .inner _ _ _ _ h _ => h

/-- Attribute `enclosing_scope` (None for the outermost scope). -/
def enclosing_scope : ScopedSymbolTable → Option ScopedSymbolTable
  | .outermost _ _ _ _ _ => none
  | .inner _ _ _ _ _ p => some p

/-- In-place update of the `_symbols` dict of this table only. -/
def mapSymbols (f : List (String × Symbol) → List (String × Symbol)) :
    ScopedSymbolTable → ScopedSymbolTable
  | .outermost n t l s h => .outermost n t l (f s) h
  | .inner n t l s h p => .inner n t l (f s) h p

/-- In-place mutation of the table referenced by `enclosing_scope` (identity
when there is none). -/
def mapEnclosing (f : ScopedSymbolTable → ScopedSymbolTable) :
    ScopedSymbolTable → ScopedSymbolTable
  | .outermost n t l s h => .outermost n t l s h
  | .inner n t l s h p => .inner n t l s h (f p)

/-- Method `insert(symbol)`: `self._symbols[symbol.name] = symbol`
(src/sts.py lines 104-106). -/
def insert (t : ScopedSymbolTable) (symbol : Symbol) : ScopedSymbolTable :=
  t.mapSymbols (fun ss => symSet ss symbol.name symbol)

/-- In-place mutation of the symbol object stored under key `k` of this
table's `_symbols` dict, modelling mutation through an alias of that
object. -/
def mapSymbolAt (t : ScopedSymbolTable) (k : String) (f : Symbol → Symbol) :
    ScopedSymbolTable :=
  t.mapSymbols (fun ss => symMapAt ss k f)

/-- Helper `_init_builtins` (src/sts.py lines 73-75): inserts fresh
BuiltinTypeSymbols INTEGER and REAL into this table. -/
def initBuiltins (t : ScopedSymbolTable) : ScopedSymbolTable :=
  (t.insert (.BuiltinTypeSymbol "INTEGER")).insert (.BuiltinTypeSymbol "REAL")

/-- Constructor `ScopedSymbolTable.__init__(scope_name, scopeType, scope_level,
enclosing_scope=None)` (src/sts.py lines 65-71): starts with an empty
`_symbols` dict, stores the name, the level and the enclosing scope — but for
`scopeType` stores the TokenType class itself, ignoring the `scopeType`
argument — and then runs `_init_builtins`. -/
def new (scope_name : String) (_scopeTypeArg : ScopeTypeVal) (scope_level : Nat)
    (enclosing_scope : Option ScopedSymbolTable := none) : ScopedSymbolTable :=
  let base : ScopedSymbolTable :=
    match enclosing_scope with
    | none => .outermost scope_name ScopeTypeVal.tokenTypeClass scope_level [] false
    | some p => .inner scope_name ScopeTypeVal.tokenTypeClass scope_level [] false p
  base.initBuiltins

/-- Method `lookup(name, current_scope_only=False)` (src/sts.py lines
108-121): consult this table's own dict; on a miss return None when
`current_scope_only` is set, otherwise recurse into the enclosing scope with
the default flag; when there is no enclosing scope and the flag is not set,
the Python function falls off its end and implicitly returns None.  The match
on the table is lifted to the top so that each constructor gets its own
equation; the branch bodies are the source's control flow verbatim. -/
def lookup : ScopedSymbolTable → String → Bool → Option Symbol
  | .outermost _ _ _ s _, name, current_scope_only =>
    (match symGet s name with
     | some sym => some sym
     | none => if current_scope_only then none else none)
  | .inner _ _ _ s _ p, name, current_scope_only =>
    match symGet s name with
    | some sym => some sym
    | none => if current_scope_only then none else p.lookup name false

/-- Chain of scope tables reachable through `enclosing_scope`, the table
itself first. -/
def chain : ScopedSymbolTable → List ScopedSymbolTable
  | .outermost n t l s h => [.outermost n t l s h]
  | .inner n t l s h p => .inner n t l s h p :: p.chain

end ScopedSymbolTable

/-- Modelled from the spec: declared-type node (Python class Type), carrying
its token and the type name. -/
structure TypeNode where
  token : Token
  value : String
deriving DecidableEq, Repr

/-- Modelled from the spec: identifier node (Python class Var), carrying the
identifier string and its token. -/
structure VarNode where
  value : String
  token : Token
deriving DecidableEq, Repr

/-- Modelled from the spec: formal-parameter node of a ProcedureDecl,
`param{type_node.value, var_node.value}`. -/
structure Param where
  type_node : TypeNode
  var_node : VarNode
deriving DecidableEq, Repr

/-- Formal-parameter node of a FunctionDecl.  The function parser is not part
of src/; visit_FunctionDecl (src/sts.py lines 219-224) reads
`param.typeNode.value` and `param.var_node.value`, so the node is modelled
with exactly those attributes. -/
structure FParam where
  typeNode : TypeNode
  var_node : VarNode
deriving DecidableEq, Repr

/-- Modelled from the spec: the node kinds the analyzer handles, with the
node shapes of section 6 of the specification; the UnaryOp shape (fields op
and expr) is from src/ast.py lines 30-33.  The field `thenBranch` renders the
Python attribute `then` of a Condition node. -/
inductive AST where
  | Program (block : AST)
  | Block (declarations : List AST) (compound_statement : AST)
  | Compound (children : List AST)
  | VarDecl (type_node : TypeNode) (var_node : VarNode)
  | ProcedureDecl (procName : String) (params : List Param) (blockNode : AST)
  | FunctionDecl (funcName : String) (params : List FParam) (returnType : TypeNode)
      (blockNode : AST) (token : Token)
  | Assign (left : VarNode) (token : Token) (right : AST)
  | Var (node : VarNode)
  | Num (token : Token)
  | BinOp (left : AST) (op : Token) (right : AST)
  | UnaryOp (op : Token) (expr : AST)
  | NoOp
  | TypeSpec (node : TypeNode)
  | ProcedureCall (actual_params : List AST)
  | Call (actual_params : List AST)
  | Condition (condition : AST) (thenBranch : AST) (myElse : Option AST)
  | Then (child : AST)
  | MyElse (child : AST)
  | While (condition : AST)
  | MyDo (child : AST)
deriving Repr

/-- Errors that abort the analysis: a SemanticError raised through
`SemanticAnalyzer.error` (carrying the error code and the offending token), a
Python AttributeError raised by an access of an attribute that does not exist
(carrying the attribute name), and exhaustion of the step fuel of the
embedding. -/
inductive Err where
  | semantic (error_code : ErrorCode) (token : Token)
  | attributeError (attr : String)
  | outOfFuel
deriving DecidableEq, Repr

/-- Result of one visit: either the analyzer's `current_scope` after the node
was handled, or the raised error together with `current_scope` at the moment
of the raise (raising does not undo scope mutations). -/
abbrev VisitResult := Except (Err × Option ScopedSymbolTable) (Option ScopedSymbolTable)

/-- Sequential visiting of a list of child nodes, threading the analyzer
state and stopping at the first raised error, as the Python for-loops over
`self.visit(child)` in visit_Block, visit_Compound, visit_ProcedureCall and
visit_Call do. -/
def seqVisit (f : AST → Option ScopedSymbolTable → VisitResult) :
    List AST → Option ScopedSymbolTable → VisitResult
  | [], st => .ok st
  | node :: rest, st =>
    match f node st with
    | .error e => .error e
    | .ok st1 => seqVisit f rest st1

/-- Scope pushed by visit_Program (src/sts.py lines 147-152): name 'global',
scopeType argument PROGRAM, scope_level hard-coded to 1, enclosing the
analyzer's current scope. -/
def programScope (st : Option ScopedSymbolTable) : ScopedSymbolTable :=
  ScopedSymbolTable.new "global" (ScopeTypeVal.member TokenType.PROGRAM) 1 st

/-- One iteration of the parameter loop of visit_ProcedureDecl (src/sts.py
lines 193-198), executed with `s` as the analyzer's current scope (the newly
pushed procedure scope): the declared type is resolved by a chained lookup in
that new scope, a VarSymbol is built and inserted into the new scope, and
`proc_symbol.params.append(var_symbol)` mutates the ProcedureSymbol object
that the enclosing scope's dict stores under the procedure's name. -/
def procParamStep (procName : String) (s : ScopedSymbolTable) (param : Param) :
    ScopedSymbolTable :=
  let param_type := s.lookup param.type_node.value false
  let var_symbol := Symbol.VarSymbol param.var_node.value param_type
  let s2 := s.insert var_symbol
  s2.mapEnclosing (fun encl => encl.mapSymbolAt procName (fun ps => ps.appendParam var_symbol))

/-- Scope in which visit_ProcedureDecl visits the procedure body (src/sts.py
lines 177-198): a ProcedureSymbol with an empty parameter list is inserted
into the current scope first, then the procedure scope is pushed with the
current level plus one and the updated current scope as enclosing scope, and
the parameter loop runs inside it. -/
def procBodyScope (cur : ScopedSymbolTable) (procName : String) (params : List Param) :
    ScopedSymbolTable :=
  let st1 := cur.insert (Symbol.ProcedureSymbol procName [])
  let procedure_scope := ScopedSymbolTable.new procName
    (ScopeTypeVal.member TokenType.PROCEDURE) (st1.scope_level + 1) (some st1)
  params.foldl (procParamStep procName) procedure_scope

/-- One iteration of the parameter loop of visit_FunctionDecl (src/sts.py
lines 219-224); identical to the procedure case except that the declared type
name is read from the parameter's `typeNode` attribute. -/
def funcParamStep (funcName : String) (s : ScopedSymbolTable) (param : FParam) :
    ScopedSymbolTable :=
  let paramType := s.lookup param.typeNode.value false
  let varSymbol := Symbol.VarSymbol param.var_node.value paramType
  let s2 := s.insert varSymbol
  s2.mapEnclosing (fun encl => encl.mapSymbolAt funcName (fun ps => ps.appendParam varSymbol))

/-- Scope in which visit_FunctionDecl visits the function body (src/sts.py
lines 207-224): same construction as for a procedure, with scopeType argument
FUNCTION (which the constructor ignores). -/
def funcBodyScope (cur : ScopedSymbolTable) (funcName : String) (params : List FParam) :
    ScopedSymbolTable :=
  let st1 := cur.insert (Symbol.ProcedureSymbol funcName [])
  let procedureScope := ScopedSymbolTable.new funcName
    (ScopeTypeVal.member TokenType.FUNCTION) (st1.scope_level + 1) (some st1)
  params.foldl (funcParamStep funcName) procedureScope

/-- Dispatch of `NodeVisitor.visit` to the per-kind handlers of
SemanticAnalyzer (src/sts.py lines 140-310), with the analyzer's
`current_scope` (an optional scope table, since Python initializes and pops
it to possibly-None references) threaded through.  Each Python recursive
`self.visit(...)` spends one unit of fuel.  Accesses of attributes or methods
on a None current scope, and accesses of attributes that no object provides
(`ScopeName`, `enclosingScope` on a scope table; `right` on a UnaryOp node),
raise AttributeError exactly where Python would. -/
def visit : Nat → AST → Option ScopedSymbolTable → VisitResult
  | 0, _, st => .error (.outOfFuel, st)
  | fuel + 1, AST.Program blockNode, st =>
    -- visit_Program, src/sts.py lines 145-161
    let global_scope := programScope st
    match visit fuel blockNode (some global_scope) with
    | .error e => .error e
    | .ok st2 =>
      match st2 with
      | some g => .ok g.enclosing_scope
      | none => .error (.attributeError "enclosing_scope", none)
  | fuel + 1, AST.Block declarations compound_statement, st =>
    -- visit_Block, src/sts.py lines 140-143
    match seqVisit (visit fuel) declarations st with
    | .error e => .error e
    | .ok st1 => visit fuel compound_statement st1
  | fuel + 1, AST.Compound children, st =>
    -- visit_Compound, src/sts.py lines 163-165
    seqVisit (visit fuel) children st
  | _ + 1, AST.VarDecl type_node var_node, st =>
    -- visit_VarDecl, src/sts.py lines 240-257
    match st with
    | none => .error (.attributeError "lookup", none)
    | some cur =>
      let type_symbol := cur.lookup type_node.value false
      let var_symbol := Symbol.VarSymbol var_node.value type_symbol
      if (cur.lookup var_node.value true).isSome then
        .error (.semantic .DUPLICATE_ID var_node.token, some cur)
      else
        .ok (some (cur.insert var_symbol))
  | fuel + 1, AST.ProcedureDecl procName params blockNode, st =>
    -- visit_ProcedureDecl, src/sts.py lines 177-205
    match st with
    | none => .error (.attributeError "insert", none)
    | some cur =>
      match visit fuel blockNode (some (procBodyScope cur procName params)) with
      | .error e => .error e
      | .ok st2 =>
        match st2 with
        | some p => .ok p.enclosing_scope
        | none => .error (.attributeError "enclosing_scope", none)
  | fuel + 1, AST.FunctionDecl funcName params _returnType blockNode token, st =>
    -- visit_FunctionDecl, src/sts.py lines 207-235; `visit_Type(node.returnType)`
    -- is a direct no-op call
    match st with
    | none => .error (.attributeError "insert", none)
    | some cur =>
      match visit fuel blockNode (some (funcBodyScope cur funcName params)) with
      | .error e => .error e
      | .ok st2 =>
        match st2 with
        | none => .error (.attributeError "hasReturnStatement", none)
        | some f =>
          if f.hasReturnStatement = false then
            .error (.semantic .MISSING_RETURN token, some f)
          else
            -- `self.current_scope=self.current_scope.enclosingScope`: the
            -- attribute is spelled enclosing_scope, so this access raises
            .error (.attributeError "enclosingScope", some f)
  | fuel + 1, AST.Assign left token right, st =>
    -- visit_Assign, src/sts.py lines 259-272
    match st with
    | none => .error (.attributeError "scopeType", none)
    | some cur =>
      if cur.scopeType == ScopeTypeVal.member TokenType.FUNCTION then
        -- `varName== currentScope.ScopeName`: no attribute ScopeName exists
        .error (.attributeError "ScopeName", some cur)
      else
        match cur.lookup left.value false with
        | none => .error (.semantic .ID_NOT_FOUND token, some cur)
        | some _ => visit fuel right st
  | _ + 1, AST.Var node, st =>
    -- visit_Var, src/sts.py lines 274-278
    match st with
    | none => .error (.attributeError "lookup", none)
    | some cur =>
      match cur.lookup node.value false with
      | none => .error (.semantic .ID_NOT_FOUND node.token, some cur)
      | some _ => .ok st
  | _ + 1, AST.Num _, st => .ok st
  | fuel + 1, AST.BinOp left _ right, st =>
    -- visit_BinOp, src/sts.py lines 173-175
    match visit fuel left st with
    | .error e => .error e
    | .ok st1 => visit fuel right st1
  | _ + 1, AST.UnaryOp _ _, st =>
    -- visit_UnaryOp, src/sts.py lines 283-284: `self.visit(node.right)`, but
    -- UnaryOp nodes (src/ast.py) store their operand in `expr` and have no
    -- attribute `right`
    .error (.attributeError "right", st)
  | _ + 1, AST.NoOp, st => .ok st
  | _ + 1, AST.TypeSpec _, st => .ok st
  | fuel + 1, AST.ProcedureCall actual_params, st =>
    -- visit_ProcedureCall, src/sts.py lines 286-288
    seqVisit (visit fuel) actual_params st
  | fuel + 1, AST.Call actual_params, st =>
    -- visit_Call, src/sts.py lines 290-292
    seqVisit (visit fuel) actual_params st
  | fuel + 1, AST.Condition condition thenBranch myElse, st =>
    -- visit_Condition, src/sts.py lines 294-298
    match visit fuel condition st with
    | .error e => .error e
    | .ok st1 =>
      match visit fuel thenBranch st1 with
      | .error e => .error e
      | .ok st2 =>
        match myElse with
        | some e => visit fuel e st2
        | none => .ok st2
  | fuel + 1, AST.Then child, st => visit fuel child st
  | fuel + 1, AST.MyElse child, st => visit fuel child st
  | fuel + 1, AST.While condition, st =>
    -- visit_While, src/sts.py lines 306-307: only the condition is visited
    visit fuel condition st
  | fuel + 1, AST.MyDo child, st => visit fuel child st

/-- Scope installed by `SemanticAnalyzer.__init__` (src/sts.py lines
125-127): a placeholder outermost table named 'initial' at level 1 with no
enclosing scope. -/
def initialScope : ScopedSymbolTable :=
  ScopedSymbolTable.new "initial" (ScopeTypeVal.member TokenType.PROGRAM) 1 none

example : initialScope.lookup "INTEGER" false = some (Symbol.BuiltinTypeSymbol "INTEGER") := rfl

example :
    visit 4 (AST.Program (AST.Block [] (AST.Compound []))) (some initialScope)
      = .ok (some initialScope) := rfl

/-! Lemmas about the dict model. -/

theorem symGet_symSet_self (l : List (String × Symbol)) (k : String) (v : Symbol) :
    symGet (symSet l k v) k = some v := by
  induction l with
  | nil => simp [symSet, symGet]
  | cons kv rest ih =>
    obtain ⟨k1, v1⟩ := kv
    by_cases h : k1 = k
    · simp [symSet, h, symGet]
    · simp [symSet, h, symGet, ih]

theorem symGet_symSet_ne (l : List (String × Symbol)) (k : String) (v : Symbol)
    (x : String) (h : x ≠ k) : symGet (symSet l k v) x = symGet l x := by
  have hk : ¬k = x := fun hh => h hh.symm
  induction l with
  | nil => simp [symSet, symGet, hk]
  | cons kv rest ih =>
    obtain ⟨k1, v1⟩ := kv
    by_cases h1 : k1 = k
    · subst h1
      simp [symSet, symGet, hk]
    · simp [symSet, h1, symGet, ih]

theorem symGet_symMapAt_self (l : List (String × Symbol)) (k : String) (f : Symbol → Symbol) :
    symGet (symMapAt l k f) k = (symGet l k).map f := by
  induction l with
  | nil => simp [symMapAt, symGet]
  | cons kv rest ih =>
    obtain ⟨k1, v1⟩ := kv
    by_cases h : k1 = k
    · subst h; simp [symMapAt, symGet, ih]
    · simp [symMapAt, symGet, h, ih]

theorem symGet_symMapAt_ne (l : List (String × Symbol)) (k : String) (f : Symbol → Symbol)
    (x : String) (h : x ≠ k) :
    symGet (symMapAt l k f) x = symGet l x := by
  induction l with
  | nil => simp [symMapAt]
  | cons kv rest ih =>
    obtain ⟨k1, v1⟩ := kv
    by_cases h1 : k1 = k
    · subst h1
      have hx : ¬k1 = x := fun hh => h hh.symm
      simp [symMapAt, symGet, hx, ih]
    · by_cases h2 : k1 = x
      · simp [symMapAt, symGet, h1, h2, h]
      · simp [symMapAt, symGet, h1, h2, ih]

/-! Accessor lemmas for the scope-table operations. -/

namespace ScopedSymbolTable

@[simp] theorem mapSymbols_scope_name (f) (t : ScopedSymbolTable) :
    (t.mapSymbols f).scope_name = t.scope_name := by cases t <;> rfl

@[simp] theorem mapSymbols_scopeType (f) (t : ScopedSymbolTable) :
    (t.mapSymbols f).scopeType = t.scopeType := by cases t <;> rfl

@[simp] theorem mapSymbols_scope_level (f) (t : ScopedSymbolTable) :
    (t.mapSymbols f).scope_level = t.scope_level := by cases t <;> rfl

@[simp] theorem mapSymbols_hasReturn (f) (t : ScopedSymbolTable) :
    (t.mapSymbols f).hasReturnStatement = t.hasReturnStatement := by cases t <;> rfl

@[simp] theorem mapSymbols_enclosing (f) (t : ScopedSymbolTable) :
    (t.mapSymbols f).enclosing_scope = t.enclosing_scope := by cases t <;> rfl

@[simp] theorem mapSymbols_symbols (f) (t : ScopedSymbolTable) :
    (t.mapSymbols f).symbols = f t.symbols := by cases t <;> rfl

@[simp] theorem mapEnclosing_scope_name (f) (t : ScopedSymbolTable) :
    (t.mapEnclosing f).scope_name = t.scope_name := by cases t <;> rfl

@[simp] theorem mapEnclosing_scopeType (f) (t : ScopedSymbolTable) :
    (t.mapEnclosing f).scopeType = t.scopeType := by cases t <;> rfl

@[simp] theorem mapEnclosing_scope_level (f) (t : ScopedSymbolTable) :
    (t.mapEnclosing f).scope_level = t.scope_level := by cases t <;> rfl

@[simp] theorem mapEnclosing_hasReturn (f) (t : ScopedSymbolTable) :
    (t.mapEnclosing f).hasReturnStatement = t.hasReturnStatement := by cases t <;> rfl

@[simp] theorem mapEnclosing_symbols (f) (t : ScopedSymbolTable) :
    (t.mapEnclosing f).symbols = t.symbols := by cases t <;> rfl

@[simp] theorem mapEnclosing_enclosing (f) (t : ScopedSymbolTable) :
    (t.mapEnclosing f).enclosing_scope = t.enclosing_scope.map f := by cases t <;> rfl

@[simp] theorem insert_scope_name (t : ScopedSymbolTable) (v : Symbol) :
    (t.insert v).scope_name = t.scope_name := by simp [insert]

@[simp] theorem insert_scopeType (t : ScopedSymbolTable) (v : Symbol) :
    (t.insert v).scopeType = t.scopeType := by simp [insert]

@[simp] theorem insert_scope_level (t : ScopedSymbolTable) (v : Symbol) :
    (t.insert v).scope_level = t.scope_level := by simp [insert]

@[simp] theorem insert_hasReturn (t : ScopedSymbolTable) (v : Symbol) :
    (t.insert v).hasReturnStatement = t.hasReturnStatement := by simp [insert]

@[simp] theorem insert_enclosing (t : ScopedSymbolTable) (v : Symbol) :
    (t.insert v).enclosing_scope = t.enclosing_scope := by simp [insert]

@[simp] theorem insert_symbols (t : ScopedSymbolTable) (v : Symbol) :
    (t.insert v).symbols = symSet t.symbols v.name v := by simp [insert]

@[simp] theorem new_scope_name (n : String) (k : ScopeTypeVal) (l : Nat)
    (e : Option ScopedSymbolTable) : (new n k l e).scope_name = n := by
  cases e <;> rfl

@[simp] theorem new_scopeType (n : String) (k : ScopeTypeVal) (l : Nat)
    (e : Option ScopedSymbolTable) : (new n k l e).scopeType = ScopeTypeVal.tokenTypeClass := by
  cases e <;> rfl

@[simp] theorem new_scope_level (n : String) (k : ScopeTypeVal) (l : Nat)
    (e : Option ScopedSymbolTable) : (new n k l e).scope_level = l := by
  cases e <;> rfl

@[simp] theorem new_hasReturn (n : String) (k : ScopeTypeVal) (l : Nat)
    (e : Option ScopedSymbolTable) : (new n k l e).hasReturnStatement = false := by
  cases e <;> rfl

@[simp] theorem new_enclosing (n : String) (k : ScopeTypeVal) (l : Nat)
    (e : Option ScopedSymbolTable) : (new n k l e).enclosing_scope = e := by
  cases e <;> rfl

@[simp] theorem new_symbols (n : String) (k : ScopeTypeVal) (l : Nat)
    (e : Option ScopedSymbolTable) :
    (new n k l e).symbols
      = [("INTEGER", Symbol.BuiltinTypeSymbol "INTEGER"),
         ("REAL", Symbol.BuiltinTypeSymbol "REAL")] := by
  cases e <;> rfl

theorem lookup_current (t : ScopedSymbolTable) (name : String) :
    t.lookup name true = symGet t.symbols name := by
  cases t <;> cases h : symGet (symbols _) name <;> simp_all [lookup, symbols]

theorem lookup_chain_eq (t : ScopedSymbolTable) (name : String) :
    t.lookup name false = t.chain.findSome? (fun f => symGet f.symbols name) := by
  induction t with
  | outermost n ty l s hr =>
    cases h : symGet s name <;> simp [lookup, chain, List.findSome?, symbols, h]
  | inner n ty l s hr p ih =>
    cases h : symGet s name <;> simp [lookup, chain, List.findSome?, symbols, h, ih]

theorem lookup_local_hit (t : ScopedSymbolTable) (name : String) (s : Symbol)
    (h : symGet t.symbols name = some s) : t.lookup name false = some s := by
  cases t <;> simp_all [lookup, symbols]

theorem lookup_inner_miss (n : String) (ty : ScopeTypeVal) (l : Nat)
    (s : List (String × Symbol)) (hr : Bool) (p : ScopedSymbolTable) (name : String)
    (h : symGet s name = none) :
    (ScopedSymbolTable.inner n ty l s hr p).lookup name false = p.lookup name false := by
  simp [lookup, h]

end ScopedSymbolTable

/-! Preservation relations: a visit may mutate the `_symbols` dicts reachable
from the current scope but never replaces the current-scope reference itself
nor any attribute of it other than its own dict. -/

/-- Two scope tables that are the same Python object up to mutations of its
own `_symbols` dict: every other attribute, including the (structurally
identical) enclosing scope, coincides. -/
def sameUpToSymbols (a b : ScopedSymbolTable) : Prop :=
  a.scope_name = b.scope_name ∧ a.scopeType = b.scopeType ∧
  a.scope_level = b.scope_level ∧ a.hasReturnStatement = b.hasReturnStatement ∧
  a.enclosing_scope = b.enclosing_scope

/-- Lifting of `sameUpToSymbols` to the analyzer's optional current scope. -/
def framePreserved : Option ScopedSymbolTable → Option ScopedSymbolTable → Prop
  | none, none => True
  | some a, some b => sameUpToSymbols a b
  | _, _ => False

theorem sameUpToSymbols_refl (t : ScopedSymbolTable) : sameUpToSymbols t t :=
  ⟨rfl, rfl, rfl, rfl, rfl⟩

theorem sameUpToSymbols_trans {a b c : ScopedSymbolTable}
    (h1 : sameUpToSymbols a b) (h2 : sameUpToSymbols b c) : sameUpToSymbols a c :=
  ⟨h1.1.trans h2.1, h1.2.1.trans h2.2.1, h1.2.2.1.trans h2.2.2.1,
   h1.2.2.2.1.trans h2.2.2.2.1, h1.2.2.2.2.trans h2.2.2.2.2⟩

theorem sameUpToSymbols_mapSymbols (t : ScopedSymbolTable) (f) :
    sameUpToSymbols t (t.mapSymbols f) := by
  refine ⟨?_, ?_, ?_, ?_, ?_⟩ <;> simp

theorem sameUpToSymbols_insert (t : ScopedSymbolTable) (v : Symbol) :
    sameUpToSymbols t (t.insert v) :=
  sameUpToSymbols_mapSymbols t _

theorem sameUpToSymbols_mapSymbolAt (t : ScopedSymbolTable) (k : String) (f) :
    sameUpToSymbols t (t.mapSymbolAt k f) :=
  sameUpToSymbols_mapSymbols t _

theorem framePreserved_refl (st : Option ScopedSymbolTable) : framePreserved st st := by
  cases st with
  | none => trivial
  | some t => exact sameUpToSymbols_refl t

theorem framePreserved_trans {a b c : Option ScopedSymbolTable}
    (h1 : framePreserved a b) (h2 : framePreserved b c) : framePreserved a c := by
  cases a <;> cases b <;> cases c <;> simp [framePreserved] at * ; exact sameUpToSymbols_trans h1 h2

theorem seqVisit_frame (f : AST → Option ScopedSymbolTable → VisitResult)
    (hf : ∀ n s s', f n s = .ok s' → framePreserved s s') :
    ∀ (l : List AST) (s s' : Option ScopedSymbolTable),
      seqVisit f l s = .ok s' → framePreserved s s' := by
  intro l
  induction l with
  | nil =>
    intro s s' h
    simp [seqVisit] at h
    subst h
    exact framePreserved_refl s
  | cons a rest ih =>
    intro s s' h
    simp only [seqVisit] at h
    cases hf1 : f a s with
    | error e => simp [hf1] at h
    | ok s1 =>
      simp only [hf1] at h
      exact framePreserved_trans (hf a s s1 hf1) (ih s1 s' h)

@[simp] theorem programScope_enclosing (st : Option ScopedSymbolTable) :
    (programScope st).enclosing_scope = st := by
  simp [programScope]

theorem foldl_enclosing_inv {α : Type} (step : ScopedSymbolTable → α → ScopedSymbolTable)
    (hstep : ∀ (s : ScopedSymbolTable) (a : α) (d : ScopedSymbolTable),
      s.enclosing_scope = some d →
      ∃ d2, (step s a).enclosing_scope = some d2 ∧ sameUpToSymbols d d2) :
    ∀ (l : List α) (s d : ScopedSymbolTable), s.enclosing_scope = some d →
      ∃ d2, (l.foldl step s).enclosing_scope = some d2 ∧ sameUpToSymbols d d2 := by
  intro l
  induction l with
  | nil =>
    intro s d h
    exact ⟨d, by simpa using h, sameUpToSymbols_refl d⟩
  | cons a rest ih =>
    intro s d h
    rw [List.foldl_cons]
    obtain ⟨d2, h2, hs2⟩ := hstep s a d h
    obtain ⟨d3, h3, hs3⟩ := ih (step s a) d2 h2
    exact ⟨d3, h3, sameUpToSymbols_trans hs2 hs3⟩

theorem procParamStep_enclosing (pname : String) (s : ScopedSymbolTable) (p : Param)
    (d : ScopedSymbolTable) (h : s.enclosing_scope = some d) :
    ∃ d2, (procParamStep pname s p).enclosing_scope = some d2 ∧ sameUpToSymbols d d2 := by
  refine ⟨d.mapSymbolAt pname
    (fun ps => ps.appendParam
      (Symbol.VarSymbol p.var_node.value (s.lookup p.type_node.value false))), ?_, ?_⟩
  · simp [procParamStep, ScopedSymbolTable.mapSymbolAt, h]
  · exact sameUpToSymbols_mapSymbolAt d pname _

theorem funcParamStep_enclosing (fname : String) (s : ScopedSymbolTable) (p : FParam)
    (d : ScopedSymbolTable) (h : s.enclosing_scope = some d) :
    ∃ d2, (funcParamStep fname s p).enclosing_scope = some d2 ∧ sameUpToSymbols d d2 := by
  refine ⟨d.mapSymbolAt fname
    (fun ps => ps.appendParam
      (Symbol.VarSymbol p.var_node.value (s.lookup p.typeNode.value false))), ?_, ?_⟩
  · simp [funcParamStep, ScopedSymbolTable.mapSymbolAt, h]
  · exact sameUpToSymbols_mapSymbolAt d fname _

theorem procBodyScope_enclosing (cur : ScopedSymbolTable) (pname : String)
    (params : List Param) :
    ∃ d, (procBodyScope cur pname params).enclosing_scope = some d
      ∧ sameUpToSymbols cur d := by
  obtain ⟨d2, h2, hs⟩ := foldl_enclosing_inv (procParamStep pname)
    (procParamStep_enclosing pname) params
    (ScopedSymbolTable.new pname (ScopeTypeVal.member TokenType.PROCEDURE)
      ((cur.insert (Symbol.ProcedureSymbol pname [])).scope_level + 1)
      (some (cur.insert (Symbol.ProcedureSymbol pname []))))
    (cur.insert (Symbol.ProcedureSymbol pname [])) (by simp)
  exact ⟨d2, by simpa [procBodyScope] using h2,
    sameUpToSymbols_trans (sameUpToSymbols_insert cur _) hs⟩

theorem funcBodyScope_enclosing (cur : ScopedSymbolTable) (fname : String)
    (params : List FParam) :
    ∃ d, (funcBodyScope cur fname params).enclosing_scope = some d
      ∧ sameUpToSymbols cur d := by
  obtain ⟨d2, h2, hs⟩ := foldl_enclosing_inv (funcParamStep fname)
    (funcParamStep_enclosing fname) params
    (ScopedSymbolTable.new fname (ScopeTypeVal.member TokenType.FUNCTION)
      ((cur.insert (Symbol.ProcedureSymbol fname [])).scope_level + 1)
      (some (cur.insert (Symbol.ProcedureSymbol fname []))))
    (cur.insert (Symbol.ProcedureSymbol fname [])) (by simp)
  exact ⟨d2, by simpa [funcBodyScope] using h2,
    sameUpToSymbols_trans (sameUpToSymbols_insert cur _) hs⟩

/-- Frame lemma: a visit that returns normally hands back the same
current-scope object it was given — only the `_symbols` dicts reachable from
it may have been mutated.  This renders in the pure embedding that every
handler that pushes a scope pops it again before returning. -/
theorem visit_frame : ∀ (fuel : Nat) (node : AST) (st st' : Option ScopedSymbolTable),
    visit fuel node st = .ok st' → framePreserved st st' := by
  intro fuel
  induction fuel with
  | zero =>
    intro node st st' h
    simp [visit] at h
  | succ fuel ih =>
    intro node st st' h
    cases node with
    | Program blockNode =>
      simp only [visit] at h
      cases hb : visit fuel blockNode (some (programScope st)) with
      | error e => simp [hb] at h
      | ok st2 =>
        simp only [hb] at h
        cases st2 with
        | none => simp at h
        | some g =>
          have hfp : sameUpToSymbols (programScope st) g :=
            ih blockNode (some (programScope st)) (some g) hb
          have henc : g.enclosing_scope = st := by
            rw [← hfp.2.2.2.2]; simp
          have hst : st' = st := by
            rw [← henc]
            exact (Except.ok.inj h).symm
          rw [hst]
          exact framePreserved_refl st
    | Block declarations compound_statement =>
      simp only [visit] at h
      cases hs : seqVisit (visit fuel) declarations st with
      | error e => simp [hs] at h
      | ok st1 =>
        simp only [hs] at h
        exact framePreserved_trans
          (seqVisit_frame (visit fuel) (fun n s s' hh => ih n s s' hh)
            declarations st st1 hs)
          (ih compound_statement st1 st' h)
    | Compound children =>
      simp only [visit] at h
      exact seqVisit_frame (visit fuel) (fun n s s' hh => ih n s s' hh) children st st' h
    | VarDecl type_node var_node =>
      cases st with
      | none => simp [visit] at h
      | some cur =>
        simp only [visit] at h
        cases hif : (cur.lookup var_node.value true).isSome with
        | true => simp [hif] at h
        | false =>
          simp [hif] at h
          rw [← h]
          exact sameUpToSymbols_insert cur _
    | ProcedureDecl procName params blockNode =>
      cases st with
      | none => simp [visit] at h
      | some cur =>
        simp only [visit] at h
        cases hb : visit fuel blockNode (some (procBodyScope cur procName params)) with
        | error e => simp [hb] at h
        | ok st2 =>
          simp only [hb] at h
          cases st2 with
          | none => simp at h
          | some p =>
            have hfp : sameUpToSymbols (procBodyScope cur procName params) p :=
              ih blockNode (some (procBodyScope cur procName params)) (some p) hb
            obtain ⟨d, hd, hsame⟩ := procBodyScope_enclosing cur procName params
            have henc : p.enclosing_scope = some d := by rw [← hfp.2.2.2.2]; exact hd
            have hst : st' = some d := by
              rw [← henc]
              exact (Except.ok.inj h).symm
            rw [hst]
            exact hsame
    | FunctionDecl funcName params returnType blockNode token =>
      cases st with
      | none => simp [visit] at h
      | some cur =>
        simp only [visit] at h
        cases hb : visit fuel blockNode (some (funcBodyScope cur funcName params)) with
        | error e => simp [hb] at h
        | ok st2 =>
          simp only [hb] at h
          cases st2 with
          | none => simp at h
          | some f =>
            cases hR : f.hasReturnStatement <;> simp [hR] at h
    | Assign left token right =>
      cases st with
      | none => simp [visit] at h
      | some cur =>
        simp only [visit] at h
        cases hc : cur.scopeType == ScopeTypeVal.member TokenType.FUNCTION with
        | true => simp [hc] at h
        | false =>
          simp only [hc, Bool.false_eq_true, if_false] at h
          cases hl : cur.lookup left.value false with
          | none => simp [hl] at h
          | some s =>
            simp only [hl] at h
            exact ih right (some cur) st' h
    | Var node =>
      cases st with
      | none => simp [visit] at h
      | some cur =>
        simp only [visit] at h
        cases hl : cur.lookup node.value false with
        | none => simp [hl] at h
        | some s =>
          simp only [hl] at h
          have hst : st' = some cur := (Except.ok.inj h).symm
          rw [hst]
          exact framePreserved_refl (some cur)
    | Num token =>
      simp only [visit] at h
      rw [← Except.ok.inj h]
      exact framePreserved_refl st
    | BinOp left op right =>
      simp only [visit] at h
      cases hL : visit fuel left st with
      | error e => simp [hL] at h
      | ok st1 =>
        simp only [hL] at h
        exact framePreserved_trans (ih left st st1 hL) (ih right st1 st' h)
    | UnaryOp op expr =>
      simp [visit] at h
    | NoOp =>
      simp only [visit] at h
      rw [← Except.ok.inj h]
      exact framePreserved_refl st
    | TypeSpec node =>
      simp only [visit] at h
      rw [← Except.ok.inj h]
      exact framePreserved_refl st
    | ProcedureCall actual_params =>
      simp only [visit] at h
      exact seqVisit_frame (visit fuel) (fun n s s' hh => ih n s s' hh) actual_params st st' h
    | Call actual_params =>
      simp only [visit] at h
      exact seqVisit_frame (visit fuel) (fun n s s' hh => ih n s s' hh) actual_params st st' h
    | Condition condition thenBranch myElse =>
      simp only [visit] at h
      cases hC : visit fuel condition st with
      | error e => simp [hC] at h
      | ok st1 =>
        simp only [hC] at h
        cases hT : visit fuel thenBranch st1 with
        | error e => simp [hT] at h
        | ok st2 =>
          simp only [hT] at h
          cases myElse with
          | some e =>
            exact framePreserved_trans (ih condition st st1 hC)
              (framePreserved_trans (ih thenBranch st1 st2 hT) (ih e st2 st' h))
          | none =>
            have hst : st' = st2 := (Except.ok.inj h).symm
            rw [hst]
            exact framePreserved_trans (ih condition st st1 hC) (ih thenBranch st1 st2 hT)
    | Then child =>
      simp only [visit] at h
      exact ih child st st' h
    | MyElse child =>
      simp only [visit] at h
      exact ih child st st' h
    | While condition =>
      simp only [visit] at h
      exact ih condition st st' h
    | MyDo child =>
      simp only [visit] at h
      exact ih child st st' h

/-- Visiting a Program node that returns normally hands back exactly the
scope it started from: the pushed global scope is popped and the enclosing
(placeholder) scope is never mutated through it. -/
theorem visit_Program_ok_eq (fuel : Nat) (b : AST) (st st' : Option ScopedSymbolTable)
    (h : visit fuel (AST.Program b) st = .ok st') : st' = st := by
  cases fuel with
  | zero => simp [visit] at h
  | succ fuel =>
    simp only [visit] at h
    cases hb : visit fuel b (some (programScope st)) with
    | error e => simp [hb] at h
    | ok st2 =>
      simp only [hb] at h
      cases st2 with
      | none => simp at h
      | some g =>
        have hfp : sameUpToSymbols (programScope st) g :=
          visit_frame fuel b (some (programScope st)) (some g) hb
        have henc : g.enclosing_scope = st := by rw [← hfp.2.2.2.2]; simp
        rw [← henc]
        exact (Except.ok.inj h).symm

/-- Visiting a FunctionDecl never returns normally: the body either raises,
or the missing-return check fires (the return flag is never set), or the
misspelled pop raises AttributeError. -/
theorem visit_FunctionDecl_not_ok (fuel : Nat) (fname : String) (fparams : List FParam)
    (rt : TypeNode) (fbody : AST) (ftok : Token) (st st' : Option ScopedSymbolTable)
    (h : visit fuel (AST.FunctionDecl fname fparams rt fbody ftok) st = .ok st') : False := by
  cases fuel with
  | zero => simp [visit] at h
  | succ fuel =>
    cases st with
    | none => simp [visit] at h
    | some cur =>
      simp only [visit] at h
      cases hb : visit fuel fbody (some (funcBodyScope cur fname fparams)) with
      | error e => simp [hb] at h
      | ok st2 =>
        simp only [hb] at h
        cases st2 with
        | none => simp at h
        | some f => cases hR : f.hasReturnStatement <;> simp [hR] at h

/-! Invariants of the parameter loop of visit_ProcedureDecl. -/

theorem procParamStep_symbols (pname : String) (s : ScopedSymbolTable) (p : Param) :
    (procParamStep pname s p).symbols
      = symSet s.symbols p.var_node.value
          (Symbol.VarSymbol p.var_node.value (s.lookup p.type_node.value false)) := by
  simp [procParamStep, Symbol.name]

theorem procFold_preserves_var (pname : String) :
    ∀ (params : List Param) (s : ScopedSymbolTable) (x : String) (t : Option Symbol),
      symGet s.symbols x = some (Symbol.VarSymbol x t) →
      ∃ t2, symGet (params.foldl (procParamStep pname) s).symbols x
        = some (Symbol.VarSymbol x t2) := by
  intro params
  induction params with
  | nil =>
    intro s x t h
    exact ⟨t, by simpa using h⟩
  | cons q rest ih =>
    intro s x t h
    rw [List.foldl_cons]
    by_cases hx : q.var_node.value = x
    · subst hx
      exact ih (procParamStep pname s q) _ (s.lookup q.type_node.value false)
        (by rw [procParamStep_symbols]; exact symGet_symSet_self _ _ _)
    · exact ih (procParamStep pname s q) x t
        (by rw [procParamStep_symbols,
              symGet_symSet_ne _ _ _ _ (fun hh => hx hh.symm)]; exact h)

theorem procFold_params_bound (pname : String) :
    ∀ (params : List Param) (s : ScopedSymbolTable),
      ∀ p ∈ params, ∃ t,
        symGet (params.foldl (procParamStep pname) s).symbols p.var_node.value
          = some (Symbol.VarSymbol p.var_node.value t) := by
  intro params
  induction params with
  | nil =>
    intro s p hp
    cases hp
  | cons q rest ih =>
    intro s p hp
    rw [List.foldl_cons]
    cases hp with
    | head =>
      exact procFold_preserves_var pname rest (procParamStep pname s q) _ _
        (by rw [procParamStep_symbols]; exact symGet_symSet_self _ _ _)
    | tail _ hmem => exact ih (procParamStep pname s q) p hmem

theorem procFold_proc_entry (pname : String) :
    ∀ (params : List Param) (s e : ScopedSymbolTable) (vs0 : List Symbol),
      s.enclosing_scope = some e →
      symGet e.symbols pname = some (Symbol.ProcedureSymbol pname vs0) →
      ∃ e2 vsNew,
        (params.foldl (procParamStep pname) s).enclosing_scope = some e2 ∧
        symGet e2.symbols pname = some (Symbol.ProcedureSymbol pname (vs0 ++ vsNew)) ∧
        vsNew.map Symbol.name = params.map (fun p => p.var_node.value) ∧
        (∀ x, x ≠ pname → symGet e2.symbols x = symGet e.symbols x) := by
  intro params
  induction params with
  | nil =>
    intro s e vs0 he hp
    exact ⟨e, [], by simpa using he, by simpa using hp, by simp, fun x _ => rfl⟩
  | cons q rest ih =>
    intro s e vs0 he hp
    rw [List.foldl_cons]
    have hstep_enc : (procParamStep pname s q).enclosing_scope
        = some (e.mapSymbolAt pname (fun ps => ps.appendParam
            (Symbol.VarSymbol q.var_node.value (s.lookup q.type_node.value false)))) := by
      simp [procParamStep, ScopedSymbolTable.mapSymbolAt, he]
    have hstep_entry :
        symGet (e.mapSymbolAt pname (fun ps => ps.appendParam
            (Symbol.VarSymbol q.var_node.value (s.lookup q.type_node.value false)))).symbols
          pname
        = some (Symbol.ProcedureSymbol pname
            (vs0 ++ [Symbol.VarSymbol q.var_node.value
              (s.lookup q.type_node.value false)])) := by
      simp [ScopedSymbolTable.mapSymbolAt, symGet_symMapAt_self, hp, Symbol.appendParam]
    obtain ⟨e2, vsNew, h1, h2, h3, h5⟩ := ih (procParamStep pname s q)
      (e.mapSymbolAt pname (fun ps => ps.appendParam
        (Symbol.VarSymbol q.var_node.value (s.lookup q.type_node.value false))))
      (vs0 ++ [Symbol.VarSymbol q.var_node.value (s.lookup q.type_node.value false)])
      hstep_enc hstep_entry
    refine ⟨e2, Symbol.VarSymbol q.var_node.value (s.lookup q.type_node.value false) :: vsNew,
      h1, ?_, ?_, ?_⟩
    · rw [h2, List.append_assoc]
      simp
    · simp [h3, Symbol.name]
    · intro x hx
      rw [h5 x hx]
      simp [ScopedSymbolTable.mapSymbolAt, symGet_symMapAt_ne _ _ _ _ hx]

theorem procBodyScope_proc_entry (cur : ScopedSymbolTable) (pname : String)
    (params : List Param) :
    ∃ e2 vs,
      (procBodyScope cur pname params).enclosing_scope = some e2 ∧
      symGet e2.symbols pname = some (Symbol.ProcedureSymbol pname vs) ∧
      vs.map Symbol.name = params.map (fun p => p.var_node.value) ∧
      (∀ x, x ≠ pname →
        symGet e2.symbols x = symGet (cur.insert (Symbol.ProcedureSymbol pname [])).symbols x) := by
  obtain ⟨e2, vsNew, h1, h2, h3, h5⟩ := procFold_proc_entry pname params
    (ScopedSymbolTable.new pname (ScopeTypeVal.member TokenType.PROCEDURE)
      ((cur.insert (Symbol.ProcedureSymbol pname [])).scope_level + 1)
      (some (cur.insert (Symbol.ProcedureSymbol pname []))))
    (cur.insert (Symbol.ProcedureSymbol pname [])) [] (by simp)
    (by simp [Symbol.name, symGet_symSet_self])
  exact ⟨e2, vsNew, by simpa [procBodyScope] using h1, by simpa using h2, h3, h5⟩

theorem procBodyScope_lookup_self (cur : ScopedSymbolTable) (pname : String)
    (params : List Param) :
    ((procBodyScope cur pname params).lookup pname false).isSome = true := by
  obtain ⟨e2, vs, h1, h2, _, _⟩ := procBodyScope_proc_entry cur pname params
  cases hsym : symGet (procBodyScope cur pname params).symbols pname with
  | some s =>
    rw [ScopedSymbolTable.lookup_local_hit _ _ _ hsym]
    rfl
  | none =>
    cases hF : procBodyScope cur pname params with
    | outermost n ty l sy hr =>
      rw [hF] at h1
      simp [ScopedSymbolTable.enclosing_scope] at h1
    | inner n ty l sy hr par =>
      rw [hF] at h1 hsym
      have hpar : par = e2 := by
        simpa [ScopedSymbolTable.enclosing_scope] using h1
      rw [ScopedSymbolTable.lookup_inner_miss _ _ _ _ _ _ _
        (by simpa [ScopedSymbolTable.symbols] using hsym)]
      rw [hpar, ScopedSymbolTable.lookup_local_hit _ _ _ h2]
      rfl

/-! Scope-level lemmas, used for claim C7. -/

theorem foldl_scope_level {α : Type} (step : ScopedSymbolTable → α → ScopedSymbolTable)
    (hstep : ∀ s a, (step s a).scope_level = s.scope_level) :
    ∀ (l : List α) (s : ScopedSymbolTable), (l.foldl step s).scope_level = s.scope_level := by
  intro l
  induction l with
  | nil => intro s; rfl
  | cons a rest ih =>
    intro s
    rw [List.foldl_cons, ih, hstep]

theorem procParamStep_scope_level (pname : String) (s : ScopedSymbolTable) (p : Param) :
    (procParamStep pname s p).scope_level = s.scope_level := by
  simp [procParamStep]

theorem funcParamStep_scope_level (fname : String) (s : ScopedSymbolTable) (p : FParam) :
    (funcParamStep fname s p).scope_level = s.scope_level := by
  simp [funcParamStep]

theorem procBodyScope_scope_level (cur : ScopedSymbolTable) (pname : String)
    (params : List Param) :
    (procBodyScope cur pname params).scope_level = cur.scope_level + 1 := by
  unfold procBodyScope
  rw [foldl_scope_level _ (procParamStep_scope_level pname)]
  simp

theorem funcBodyScope_scope_level (cur : ScopedSymbolTable) (fname : String)
    (params : List FParam) :
    (funcBodyScope cur fname params).scope_level = cur.scope_level + 1 := by
  unfold funcBodyScope
  rw [foldl_scope_level _ (funcParamStep_scope_level fname)]
  simp

/-! Concrete inputs used by the witnesses and by the code-bug evaluations. -/

/-- Concrete token for the scenarios below. -/
def tok (v : String) : Token := ⟨v, 1, 1⟩

/-- Scope that binds `x` besides the builtins. -/
def outerWithX : ScopedSymbolTable :=
  initialScope.insert (Symbol.VarSymbol "x" (some (Symbol.BuiltinTypeSymbol "INTEGER")))

/-- Nested scope whose enclosing scope binds `x`. -/
def innerScope0 : ScopedSymbolTable :=
  ScopedSymbolTable.new "inner" (ScopeTypeVal.member TokenType.PROCEDURE) 2 (some outerWithX)

/-- One INTEGER-typed formal parameter named `a`. -/
def demoParams : List Param := [⟨⟨tok "INTEGER", "INTEGER"⟩, ⟨"a", tok "a"⟩⟩]

/-- Scope left behind by declaring procedure `p(a : INTEGER)` in the
placeholder scope. -/
def demoResult : ScopedSymbolTable :=
  initialScope.insert (Symbol.ProcedureSymbol "p"
    [Symbol.VarSymbol "a" (some (Symbol.BuiltinTypeSymbol "INTEGER"))])

/-- Body `f := 5` of a function: a single assignment to the function's own
name. -/
def funcBodyWithSelfAssign : AST :=
  AST.Block [] (AST.Compound
    [AST.Assign ⟨"f", tok "f"⟩ (tok ":=") (AST.Num (tok "5"))])

/-- Function declaration `f : INTEGER` whose body assigns to `f`. -/
def funcDemo : AST :=
  AST.FunctionDecl "f" [] ⟨tok "INTEGER", "INTEGER"⟩ funcBodyWithSelfAssign (tok "f")

/-- Program declaring the function `f` above. -/
def progWithFunc : AST :=
  AST.Program (AST.Block [funcDemo] (AST.Compound []))

/-! Claim theorems. -/

/-- C1 (the code evaluated at the failing input): a function whose body assigns
to the function's own name still fails with MissingReturn at the declaration
token.  The scope's scopeType attribute holds the TokenType class, never the
member FUNCTION, so the own-name branch of visit_Assign never fires; the
assignment instead performs an ordinary chained lookup (which finds the
function's ProcedureSymbol in the enclosing scope), the return flag stays
false, and the missing-return check raises after the body — contradicting the
claim, which demands success (flag set, no lookup, no MissingReturn) exactly
when such an assignment occurs. -/
theorem C1_code_bug :
    visit 20 progWithFunc (some initialScope)
      = .error (.semantic .MISSING_RETURN (tok "f"),
          some (funcBodyScope (programScope (some initialScope)) "f" [])) ∧
    (funcBodyScope (programScope (some initialScope)) "f" []).hasReturnStatement = false :=
  ⟨rfl, rfl⟩

/-- C2: every newly constructed scope table — whatever name, scope-kind
argument, level and enclosing scope are passed, hence at any nesting depth —
contains exactly the two builtin type symbols INTEGER and REAL, freshly
inserted into its own (initially empty) dict rather than inherited, and
looking either name up succeeds immediately, both in current-scope-only and in
chained mode, without any declaration. -/
theorem C2_builtins (n : String) (k : ScopeTypeVal) (l : Nat)
    (e : Option ScopedSymbolTable) :
    (ScopedSymbolTable.new n k l e).symbols
      = [("INTEGER", Symbol.BuiltinTypeSymbol "INTEGER"),
         ("REAL", Symbol.BuiltinTypeSymbol "REAL")] ∧
    (ScopedSymbolTable.new n k l e).lookup "INTEGER" true
      = some (Symbol.BuiltinTypeSymbol "INTEGER") ∧
    (ScopedSymbolTable.new n k l e).lookup "REAL" true
      = some (Symbol.BuiltinTypeSymbol "REAL") ∧
    (ScopedSymbolTable.new n k l e).lookup "INTEGER" false
      = some (Symbol.BuiltinTypeSymbol "INTEGER") ∧
    (ScopedSymbolTable.new n k l e).lookup "REAL" false
      = some (Symbol.BuiltinTypeSymbol "REAL") := by
  cases e <;> exact ⟨rfl, rfl, rfl, rfl, rfl⟩

/-- C3: visiting a VarDecl with current scope `cur` raises DuplicateIdentifier
at the variable's token — carrying the scope unchanged — exactly when the name
is already bound in `cur`'s own dict (current-scope-only lookup); when it is
not, even if the name is bound in an enclosing scope (shadowing), the visit
succeeds and inserts into `cur` a VarSymbol carrying the result of resolving
the declared type name by chained lookup. -/
theorem C3_vardecl (fuel : Nat) (tn : TypeNode) (vn : VarNode) (cur : ScopedSymbolTable) :
    (visit (fuel + 1) (AST.VarDecl tn vn) (some cur)
        = .error (.semantic .DUPLICATE_ID vn.token, some cur)
      ↔ (cur.lookup vn.value true).isSome = true) ∧
    ((cur.lookup vn.value true).isSome = false →
      visit (fuel + 1) (AST.VarDecl tn vn) (some cur)
        = .ok (some (cur.insert (Symbol.VarSymbol vn.value (cur.lookup tn.value false))))) := by
  cases hif : (cur.lookup vn.value true).isSome with
  | true =>
    have hv : visit (fuel + 1) (AST.VarDecl tn vn) (some cur)
        = .error (.semantic .DUPLICATE_ID vn.token, some cur) := by
      simp [visit, hif]
    refine ⟨?_, ?_⟩
    · rw [hv]
      simp
    · intro hc
      exact Bool.noConfusion hc
  | false =>
    have hv : visit (fuel + 1) (AST.VarDecl tn vn) (some cur)
        = .ok (some (cur.insert (Symbol.VarSymbol vn.value (cur.lookup tn.value false)))) := by
      simp [visit, hif]
    refine ⟨?_, fun _ => hv⟩
    rw [hv]
    simp

/-- C3 witness: in a nested scope whose enclosing scope already binds `x`,
re-declaring `x` is legal shadowing — the current-scope-only lookup misses and
the declaration inserts the shadowing VarSymbol — while re-declaring `x`
directly in the scope that binds it raises DuplicateIdentifier at its token. -/
theorem C3_vardecl_witness :
    (innerScope0.lookup "x" true).isSome = false ∧
    visit 1 (AST.VarDecl ⟨tok "INTEGER", "INTEGER"⟩ ⟨"x", tok "x"⟩) (some innerScope0)
      = .ok (some (innerScope0.insert
          (Symbol.VarSymbol "x" (innerScope0.lookup "INTEGER" false)))) ∧
    (outerWithX.lookup "x" true).isSome = true ∧
    visit 1 (AST.VarDecl ⟨tok "INTEGER", "INTEGER"⟩ ⟨"x", tok "x"⟩) (some outerWithX)
      = .error (.semantic .DUPLICATE_ID (tok "x"), some outerWithX) :=
  ⟨rfl,
   (C3_vardecl 0 ⟨tok "INTEGER", "INTEGER"⟩ ⟨"x", tok "x"⟩ innerScope0).2 rfl,
   rfl,
   (C3_vardecl 0 ⟨tok "INTEGER", "INTEGER"⟩ ⟨"x", tok "x"⟩ outerWithX).1.mpr rfl⟩

/-- C4: lookup in current-scope-only mode returns exactly what this table's
own dict holds for the name; chained lookup returns the first hit found while
walking the chain of enclosing scopes starting at this table, and none when
every table in the chain misses — in particular none when the name is absent
and there is no enclosing scope.  The embedding of lookup is a pure total
function, matching that the Python method mutates nothing and raises
nothing. -/
theorem C4_lookup (t : ScopedSymbolTable) (name : String) :
    t.lookup name true = symGet t.symbols name ∧
    t.lookup name false = t.chain.findSome? (fun f => symGet f.symbols name) :=
  ⟨ScopedSymbolTable.lookup_current t name, ScopedSymbolTable.lookup_chain_eq t name⟩

/-- C5: a ProcedureDecl visit that returns normally started from some scope
`cur` and ended in a scope `d` in which the procedure's name is bound to a
ProcedureSymbol whose parameter list carries the formal parameters' VarSymbols
in declaration order; inside the scope in which the body was visited the
procedure's own name resolves (it was inserted into the enclosing scope before
the push) and every formal parameter is bound as a VarSymbol; and no parameter
name leaked into the enclosing scope — its binding there is whatever it was
before the visit (unless the parameter shares the procedure's own name). -/
theorem C5_proceduredecl (fuel : Nat) (procName : String) (params : List Param)
    (blockNode : AST) (st st' : Option ScopedSymbolTable)
    (h : visit fuel (AST.ProcedureDecl procName params blockNode) st = .ok st') :
    ∃ cur d, st = some cur ∧ st' = some d ∧
      ((procBodyScope cur procName params).lookup procName false).isSome = true ∧
      (∀ p ∈ params, ∃ t,
        symGet (procBodyScope cur procName params).symbols p.var_node.value
          = some (Symbol.VarSymbol p.var_node.value t)) ∧
      (∃ vs, symGet d.symbols procName = some (Symbol.ProcedureSymbol procName vs) ∧
        vs.map Symbol.name = params.map (fun p => p.var_node.value)) ∧
      (∀ p ∈ params, p.var_node.value = procName ∨
        symGet d.symbols p.var_node.value = symGet cur.symbols p.var_node.value) := by
  cases fuel with
  | zero => simp [visit] at h
  | succ fuel =>
    cases st with
    | none => simp [visit] at h
    | some cur =>
      simp only [visit] at h
      cases hb : visit fuel blockNode (some (procBodyScope cur procName params)) with
      | error e => simp [hb] at h
      | ok st2 =>
        simp only [hb] at h
        cases st2 with
        | none => simp at h
        | some p =>
          have hfp : sameUpToSymbols (procBodyScope cur procName params) p :=
            visit_frame fuel blockNode (some (procBodyScope cur procName params)) (some p) hb
          obtain ⟨e2, vs, h1, h2, h3, h5⟩ := procBodyScope_proc_entry cur procName params
          have henc : p.enclosing_scope = some e2 := by rw [← hfp.2.2.2.2]; exact h1
          have hst : st' = some e2 := by rw [← henc]; exact (Except.ok.inj h).symm
          refine ⟨cur, e2, rfl, hst, procBodyScope_lookup_self cur procName params,
            ?_, ⟨vs, h2, h3⟩, ?_⟩
          · have hb2 := procFold_params_bound procName params
              (ScopedSymbolTable.new procName (ScopeTypeVal.member TokenType.PROCEDURE)
                ((cur.insert (Symbol.ProcedureSymbol procName [])).scope_level + 1)
                (some (cur.insert (Symbol.ProcedureSymbol procName []))))
            intro p2 hp2
            simpa [procBodyScope] using hb2 p2 hp2
          · intro p2 hp2
            by_cases hpn : p2.var_node.value = procName
            · exact Or.inl hpn
            · refine Or.inr ?_
              rw [h5 _ hpn, ScopedSymbolTable.insert_symbols]
              exact symGet_symSet_ne _ _ _ _ hpn

/-- C5 witness: declaring procedure `p(a : INTEGER)` with a trivial body in
the placeholder scope succeeds, leaving `p` bound to a ProcedureSymbol with
the single parameter `a`, with `a` resolvable inside the procedure scope and
absent from the enclosing scope. -/
theorem C5_witness :
    ∃ cur d, (some initialScope : Option ScopedSymbolTable) = some cur ∧
      (some demoResult : Option ScopedSymbolTable) = some d ∧
      ((procBodyScope cur "p" demoParams).lookup "p" false).isSome = true ∧
      (∀ p ∈ demoParams, ∃ t,
        symGet (procBodyScope cur "p" demoParams).symbols p.var_node.value
          = some (Symbol.VarSymbol p.var_node.value t)) ∧
      (∃ vs, symGet d.symbols "p" = some (Symbol.ProcedureSymbol "p" vs) ∧
        vs.map Symbol.name = demoParams.map (fun p => p.var_node.value)) ∧
      (∀ p ∈ demoParams, p.var_node.value = "p" ∨
        symGet d.symbols p.var_node.value = symGet cur.symbols p.var_node.value) :=
  C5_proceduredecl 4 "p" demoParams (AST.Block [] (AST.Compound []))
    (some initialScope) (some demoResult) rfl

/-- C6: a Program visit that returns normally hands back exactly the scope it
started from; a ProcedureDecl visit hands back the same scope object with only
its own symbol dict possibly extended (same name, kind, level, return flag and
the very same enclosing chain); a FunctionDecl visit never returns normally,
so the restoration claim holds for it vacuously.  In each case the scope
pushed on entry is popped and no longer referenced by the state handed
back. -/
theorem C6_scope_restored (fuel : Nat) (blockNode : AST) (pname : String)
    (pparams : List Param) (pbody : AST) (fname : String) (fparams : List FParam)
    (rt : TypeNode) (fbody : AST) (ftok : Token) (st st' : Option ScopedSymbolTable) :
    (visit fuel (AST.Program blockNode) st = .ok st' → st' = st) ∧
    (visit fuel (AST.ProcedureDecl pname pparams pbody) st = .ok st' → framePreserved st st') ∧
    (visit fuel (AST.FunctionDecl fname fparams rt fbody ftok) st = .ok st'
      → framePreserved st st') :=
  ⟨fun h => visit_Program_ok_eq fuel blockNode st st' h,
   fun h => visit_frame fuel (AST.ProcedureDecl pname pparams pbody) st st' h,
   fun h => visit_frame fuel (AST.FunctionDecl fname fparams rt fbody ftok) st st' h⟩

/-- C6 witness: an empty program returns the placeholder scope itself, and a
parameterless procedure declaration returns the same scope extended only by
the procedure's own symbol. -/
theorem C6_witness :
    visit 4 (AST.Program (AST.Block [] (AST.Compound []))) (some initialScope)
      = .ok (some initialScope) ∧
    (some initialScope : Option ScopedSymbolTable) = some initialScope ∧
    visit 4 (AST.ProcedureDecl "p" [] (AST.Block [] (AST.Compound []))) (some initialScope)
      = .ok (some (initialScope.insert (Symbol.ProcedureSymbol "p" []))) ∧
    framePreserved (some initialScope)
      (some (initialScope.insert (Symbol.ProcedureSymbol "p" []))) :=
  ⟨rfl,
   (C6_scope_restored 4 (AST.Block [] (AST.Compound [])) "p" []
      (AST.Block [] (AST.Compound [])) "f" [] ⟨tok "INTEGER", "INTEGER"⟩
      (AST.Block [] (AST.Compound [])) (tok "f")
      (some initialScope) (some initialScope)).1 rfl,
   rfl,
   (C6_scope_restored 4 (AST.Block [] (AST.Compound [])) "p" []
      (AST.Block [] (AST.Compound [])) "f" [] ⟨tok "INTEGER", "INTEGER"⟩
      (AST.Block [] (AST.Compound [])) (tok "f")
      (some initialScope)
      (some (initialScope.insert (Symbol.ProcedureSymbol "p" [])))).2.1 rfl⟩

/-- C7 counterexample: with the analyzer's placeholder scope (level 1) as the
current scope, visit_Program pushes the global scope also at level 1, not at
the placeholder's level plus one as the claim states. -/
theorem C7_counterexample :
    (programScope (some initialScope)).scope_level = 1 ∧
    initialScope.scope_level = 1 ∧
    ((programScope (some initialScope)).scope_level
      == initialScope.scope_level + 1) = false :=
  ⟨rfl, rfl, rfl⟩

/-- C7 amended: procedure and function scopes are pushed at their enclosing
scope's level plus one, but the program scope is pushed with its level
hard-coded to 1 — the same level as the placeholder outermost scope, not the
placeholder's level plus one. -/
theorem C7_amended (st : Option ScopedSymbolTable) (cur : ScopedSymbolTable)
    (pn : String) (pp : List Param) (fn : String) (fp : List FParam) :
    (programScope st).scope_level = 1 ∧
    initialScope.scope_level = 1 ∧
    (procBodyScope cur pn pp).scope_level = cur.scope_level + 1 ∧
    (funcBodyScope cur fn fp).scope_level = cur.scope_level + 1 :=
  ⟨by simp [programScope], rfl,
   procBodyScope_scope_level cur pn pp, funcBodyScope_scope_level cur fn fp⟩

/-- C8 (the code evaluated at the failing input): visiting a UnaryOp node
raises AttributeError for `right` even though visiting its operand succeeds —
the handler reads `node.right`, an attribute that UnaryOp nodes of src/ast.py
do not have (the operand is stored in `expr`), so analyzing a UnaryOp does not
behave like analyzing its operand. -/
theorem C8_code_bug :
    visit 3 (AST.UnaryOp (tok "-") (AST.Num (tok "3"))) (some initialScope)
      = .error (.attributeError "right", some initialScope) ∧
    visit 3 (AST.Num (tok "3")) (some initialScope) = .ok (some initialScope) :=
  ⟨rfl, rfl⟩

/-- C9: the scope-table constructor ignores its scope-kind argument — whatever
kind `k` is passed, the stored scopeType is the constant tokenTypeClass, the
TokenType enumeration class itself rather than one of its members — and hence
the test `scopeType == TokenType.FUNCTION` performed by visit_Assign evaluates
false for it.  Every scope the analyzer ever creates is built by this
constructor. -/
theorem C9_scopeType_constant (n : String) (k : ScopeTypeVal) (l : Nat)
    (e : Option ScopedSymbolTable) :
    (ScopedSymbolTable.new n k l e).scopeType = ScopeTypeVal.tokenTypeClass ∧
    ((ScopedSymbolTable.new n k l e).scopeType
      == ScopeTypeVal.member TokenType.FUNCTION) = false := by
  cases e <;> exact ⟨rfl, rfl⟩

/-- C10: when visiting a VarDecl fails with DuplicateIdentifier at the
variable's token, the scope carried at the moment of the raise is exactly the
entry scope — the duplicate check precedes the insertion, so nothing was
inserted and every pre-existing binding is untouched — and the failure indeed
implies the name was already bound in the current scope's own dict. -/
theorem C10_vardecl_error_preserves (fuel : Nat) (tn : TypeNode) (vn : VarNode)
    (cur : ScopedSymbolTable) (st' : Option ScopedSymbolTable)
    (h : visit fuel (AST.VarDecl tn vn) (some cur)
        = .error (.semantic .DUPLICATE_ID vn.token, st')) :
    st' = some cur ∧ (cur.lookup vn.value true).isSome = true := by
  cases fuel with
  | zero => simp [visit] at h
  | succ fuel =>
    simp only [visit] at h
    cases hif : (cur.lookup vn.value true).isSome with
    | true =>
      simp [hif] at h
      exact ⟨h.symm, rfl⟩
    | false => simp [hif] at h

/-- C10 witness: declaring a variable named INTEGER collides with the builtin
already bound in the placeholder scope; the raise carries the scope
unchanged. -/
theorem C10_witness :
    visit 1 (AST.VarDecl ⟨tok "REAL", "REAL"⟩ ⟨"INTEGER", tok "INTEGER"⟩)
        (some initialScope)
      = .error (.semantic .DUPLICATE_ID (tok "INTEGER"), some initialScope) ∧
    ((some initialScope : Option ScopedSymbolTable) = some initialScope ∧
      (initialScope.lookup "INTEGER" true).isSome = true) :=
  ⟨rfl,
   C10_vardecl_error_preserves 1 ⟨tok "REAL", "REAL"⟩ ⟨"INTEGER", tok "INTEGER"⟩
     initialScope (some initialScope) rfl⟩

end Denk
